import Mathlib

/-!
Verification development for the meal-planner repository
(`planner_jidelnicku_final.py`).  The Python source is shallowly embedded:
Python floats are modelled as rationals, dictionaries keyed by the four
tracked nutrients as structures of `Option` fields, Python sets of strings
as lists of strings, and fallible code as `Except String`.
-/

/-- The four tracked nutrients (the `nutrients` list in `knapsack_optimize`
and the keys of the `totals` dictionary). -/
inductive Nutrient
  | calories
  | protein
  | fat
  | carbs
deriving DecidableEq, Repr

/-- The fixed iteration order `["calories", "protein", "fat", "carbs"]`. -/
def nutrientsOrder : List Nutrient :=
  [Nutrient.calories, Nutrient.protein, Nutrient.fat, Nutrient.carbs]

/-- The four meal slots.  The source addresses them by the string literals
`"breakfast"`, `"lunch"`, `"dinner"`, `"snack"`. -/
inductive Slot
  | breakfast
  | lunch
  | dinner
  | snack
deriving DecidableEq, Repr

/-- The string literal the source uses for a slot. -/
def Slot.name : Slot → String
  | Slot.breakfast => "breakfast"
  | Slot.lunch => "lunch"
  | Slot.dinner => "dinner"
  | Slot.snack => "snack"

/-- The fixed slot priority order used by `distribute_to_slots` and by the
slot loops of `find_optimal_plan`. -/
def slotOrder : List Slot :=
  [Slot.breakfast, Slot.lunch, Slot.dinner, Slot.snack]

/-- Embedding of the frozen dataclass `FoodItem`.  `meal_times` and `tags`
are Python sets of strings, modelled as lists (only membership is ever
used); the default `meal_times` is all four slots, the default `tags` is
empty, exactly as in the dataclass field defaults. -/
structure FoodItem where
  name : String
  calories : Int
  protein : ℚ
  fat : ℚ
  carbs : ℚ
  meal_times : List String := ["breakfast", "lunch", "dinner", "snack"]
  tags : List String := []
deriving DecidableEq, Repr

/-- `FoodItem.get_nutrient_value`, restricted to the four tracked nutrients
(the only keys the core ever passes; unknown keys would return `0.0`). -/
def FoodItem.nutrientValue (i : FoodItem) : Nutrient → ℚ
  | Nutrient.calories => (i.calories : ℚ)
  | Nutrient.protein => i.protein
  | Nutrient.fat => i.fat
  | Nutrient.carbs => i.carbs

/-- A `targets` dictionary whose keys range over the four tracked
nutrients; `none` models an absent key (and an entry whose value is the
Python `None` was already removed by the `daily_targets` comprehension). -/
structure Targets where
  calories : Option ℚ := none
  protein : Option ℚ := none
  fat : Option ℚ := none
  carbs : Option ℚ := none
deriving DecidableEq, Repr

/-- Dictionary lookup `targets.get(nutrient)` / `nutrient in targets`. -/
def Targets.get (t : Targets) : Nutrient → Option ℚ
  | Nutrient.calories => t.calories
  | Nutrient.protein => t.protein
  | Nutrient.fat => t.fat
  | Nutrient.carbs => t.carbs

/-- Python truthiness of the dictionary (`if not targets`, `if daily_targets`):
true exactly when some key is present. -/
def Targets.anySet (t : Targets) : Bool :=
  t.calories.isSome || t.protein.isSome || t.fat.isSome || t.carbs.isSome

/-- Whether some nutrient is present with a strictly positive goal
(the condition under which the scorer actually scores a nutrient). -/
def Targets.hasActive (t : Targets) : Bool :=
  nutrientsOrder.any fun n =>
    match t.get n with
    | some tv => decide (0 < tv)
    | none => false

/-- The per-slot target dictionary `{nutrient: target * percentage}` built
in `find_optimal_plan`. -/
def Targets.scale (t : Targets) (pct : ℚ) : Targets where
  calories := t.calories.map (· * pct)
  protein := t.protein.map (· * pct)
  fat := t.fat.map (· * pct)
  carbs := t.carbs.map (· * pct)

/-- The `weights` dictionary (`weights.get(nutrient, 1.0)` supplies the
default). -/
structure Weights where
  calories : Option ℚ := none
  protein : Option ℚ := none
  fat : Option ℚ := none
  carbs : Option ℚ := none
deriving DecidableEq, Repr

/-- `weights.get(nutrient, 1.0)`. -/
def Weights.getW (w : Weights) : Nutrient → ℚ
  | Nutrient.calories => w.calories.getD 1
  | Nutrient.protein => w.protein.getD 1
  | Nutrient.fat => w.fat.getD 1
  | Nutrient.carbs => w.carbs.getD 1

/-- The `limits` dictionary: entries `(nutrient, (min, max))`, iterated in
insertion order; either bound may be `None`. -/
abbrev Limits : Type := List (Nutrient × Option ℚ × Option ℚ)

/-- Sum of one nutrient over a list of foods (the running/plan totals). -/
def nutrientTotal (items : List FoodItem) (n : Nutrient) : ℚ :=
  (items.map (fun i => i.nutrientValue n)).sum

/-- One iteration of the scoring loop body of `knapsack_optimize`
(`score += contribution` for one nutrient). -/
def scoreStep (food : FoodItem) (targets : Targets) (weights : Weights)
    (s : ℚ) (n : Nutrient) : ℚ :=
  match targets.get n with
  | some tv =>
    if 0 < tv then
      let v := food.nutrientValue n
      let w := weights.getW n
      let rr := v / max tv 1
      if (3 : ℚ) / 2 < rr then s + (-w * (rr - 1)) else s + w * (1 - |1 - rr|)
    else s
  | none => s

/-- The per-food score of `knapsack_optimize`: fold the scoring step over
the four nutrients, then divide by `len(nutrients) = 4`. -/
def foodScore (food : FoodItem) (targets : Targets) (weights : Weights) : ℚ :=
  (nutrientsOrder.foldl (scoreStep food targets weights) 0) / 4

/-- The `item_scores` list `[(score, food), ...]` in catalog order. -/
def itemScores (foods : List FoodItem) (targets : Targets) (weights : Weights) :
    List (ℚ × FoodItem) :=
  foods.map fun f => (foodScore f targets weights, f)

/-- Stable insertion into a descending-by-score list: the new element goes
in front of the first element whose score is not larger.  Folded over the
input from the right this reproduces the output of Python's stable
`list.sort(reverse=True, key=score)`. -/
def insertByScore (x : ℚ × FoodItem) : List (ℚ × FoodItem) → List (ℚ × FoodItem)
  | [] => [x]
  | y :: ys => if y.1 ≤ x.1 then x :: y :: ys else y :: insertByScore x ys

/-- Stable descending sort by score, the embedding of
`item_scores.sort(reverse=True, key=lambda x: x[0])`. -/
def sortByScoreDesc : List (ℚ × FoodItem) → List (ℚ × FoodItem)
  | [] => []
  | x :: xs => insertByScore x (sortByScoreDesc xs)

/-- The check a single `limits` entry performs on the hypothetical totals:
if a minimum is configured and the value is below it the loop `continue`s
(entry passes, the maximum is not examined); otherwise a configured
maximum above which the value lies fails the entry. -/
def limitEntryOk (tot : Nutrient → ℚ) : Nutrient × Option ℚ × Option ℚ → Bool
  | (n, mn, mx) =>
    let val := tot n
    match mn with
    | some m =>
      if val < m then true
      else
        match mx with
        | some mxv => decide (val ≤ mxv)
        | none => true
    | none =>
      match mx with
      | some mxv => decide (val ≤ mxv)
      | none => true

/-- `within_limits`: every `limits` entry passes on the hypothetical totals. -/
def withinLimitsB (L : Limits) (tot : Nutrient → ℚ) : Bool :=
  L.all (limitEntryOk tot)

/-- The selection loop of `knapsack_optimize`: walk the sorted candidates,
stop when `max_items` have been accepted (`remaining = 0`), otherwise
accept a candidate exactly when the hypothetical totals stay within the
limits. -/
def selectFoods (L : Limits) : List (ℚ × FoodItem) → (Nutrient → ℚ) → Nat → List FoodItem
  | [], _, _ => []
  | (_, f) :: rest, tot, remaining =>
    if remaining = 0 then []
    else
      let temp := fun n => tot n + f.nutrientValue n
      if withinLimitsB L temp then
        f :: selectFoods L rest temp (remaining - 1)
      else
        selectFoods L rest tot remaining

/-- `MealOptimizer.knapsack_optimize`: empty guard, scoring, stable
descending sort, then the bounded greedy selection loop. -/
def knapsack_optimize (foods : List FoodItem) (targets : Targets) (L : Limits)
    (weights : Weights) (maxItems : Nat := 10) : List FoodItem :=
  if !targets.anySet || foods.isEmpty then []
  else
    selectFoods L (sortByScoreDesc (itemScores foods targets weights))
      (fun _ => 0) maxItems

/-- Per-slot capacity map `slot_caps` covering the four slots
(`(min_count, max_count)` pairs; the data model requires non-negative
counts, so they are modelled as naturals). -/
structure SlotCaps where
  breakfast : Nat × Nat
  lunch : Nat × Nat
  dinner : Nat × Nat
  snack : Nat × Nat
deriving DecidableEq, Repr

/-- Lookup `slot_caps[slot]`. -/
def SlotCaps.get (c : SlotCaps) : Slot → Nat × Nat
  | Slot.breakfast => c.breakfast
  | Slot.lunch => c.lunch
  | Slot.dinner => c.dinner
  | Slot.snack => c.snack

/-- The `distribution` dictionary of `distribute_to_slots`: one food list
per slot. -/
structure Distribution where
  breakfast : List FoodItem
  lunch : List FoodItem
  dinner : List FoodItem
  snack : List FoodItem
deriving DecidableEq, Repr

/-- Lookup `distribution[slot]`. -/
def Distribution.get (d : Distribution) : Slot → List FoodItem
  | Slot.breakfast => d.breakfast
  | Slot.lunch => d.lunch
  | Slot.dinner => d.dinner
  | Slot.snack => d.snack

/-- `distribution[slot].append(food)`. -/
def Distribution.push (d : Distribution) : Slot → FoodItem → Distribution
  | Slot.breakfast, f => { d with breakfast := d.breakfast ++ [f] }
  | Slot.lunch, f => { d with lunch := d.lunch ++ [f] }
  | Slot.dinner, f => { d with dinner := d.dinner ++ [f] }
  | Slot.snack, f => { d with snack := d.snack ++ [f] }

/-- The initial `{slot: [] for slot in slot_caps}` dictionary. -/
def emptyDistribution : Distribution := ⟨[], [], [], []⟩

/-- First pass of `distribute_to_slots` for one food: the first slot, in
priority order, that the food is eligible for (slot name in its
`meal_times`), that is not the breakfast-with-meat cultural exclusion, and
whose occupancy is below its configured maximum. -/
def tryNatural (caps : SlotCaps) (d : Distribution) (f : FoodItem) :
    List Slot → Option Slot
  | [] => none
  | s :: rest =>
    if s.name ∈ f.meal_times ∧ ¬(s = Slot.breakfast ∧ "meat" ∈ f.tags) ∧
        (d.get s).length < (caps.get s).2 then
      some s
    else tryNatural caps d f rest

/-- Fallback pass of `distribute_to_slots` for one food: the first slot, in
the same priority order, with any free capacity, ignoring eligibility and
the meat rule. -/
def tryFallback (caps : SlotCaps) (d : Distribution) : List Slot → Option Slot
  | [] => none
  | s :: rest =>
    if (d.get s).length < (caps.get s).2 then some s
    else tryFallback caps d rest

/-- The body of the `for food in foods` loop of `distribute_to_slots`:
natural assignment, then fallback, otherwise the food is silently dropped. -/
def assignFood (caps : SlotCaps) (d : Distribution) (f : FoodItem) : Distribution :=
  match tryNatural caps d f slotOrder with
  | some s => d.push s f
  | none =>
    match tryFallback caps d slotOrder with
    | some s => d.push s f
    | none => d

/-- `MealOptimizer.distribute_to_slots`. -/
def distribute_to_slots (foods : List FoodItem) (caps : SlotCaps) : Distribution :=
  foods.foldl (assignFood caps) emptyDistribution

/-- The mutable state of `MealPlanBuilder`: the four slot lists plus the
configured `_slot_caps` (after any `set_slot_limits` calls). -/
structure MealPlanBuilder where
  breakfast : List FoodItem
  lunch : List FoodItem
  dinner : List FoodItem
  snacks : List FoodItem
  slot_caps : SlotCaps
deriving DecidableEq, Repr

/-- `MealPlanBuilder._get_slot_items` for the four known slots. -/
def MealPlanBuilder.slotItems (b : MealPlanBuilder) : Slot → List FoodItem
  | Slot.breakfast => b.breakfast
  | Slot.lunch => b.lunch
  | Slot.dinner => b.dinner
  | Slot.snack => b.snacks

/-- `MealPlanBuilder.add_to_slot`: raises (`Except.error`) when the slot is
not among the item's `meal_times`; otherwise appends the item to the list
matching the slot name, or — for a slot name outside the four known ones —
silently returns the builder unchanged. -/
def MealPlanBuilder.add_to_slot (b : MealPlanBuilder) (slot : String)
    (item : FoodItem) : Except String MealPlanBuilder :=
  if slot ∉ item.meal_times then
    Except.error ("Potravina " ++ item.name ++ " neni vhodna pro " ++ slot)
  else if slot = "breakfast" then
    Except.ok { b with breakfast := b.breakfast ++ [item] }
  else if slot = "lunch" then
    Except.ok { b with lunch := b.lunch ++ [item] }
  else if slot = "dinner" then
    Except.ok { b with dinner := b.dinner ++ [item] }
  else if slot = "snack" then
    Except.ok { b with snacks := b.snacks ++ [item] }
  else
    Except.ok b

/-- Embedding of the frozen dataclass-like `MealPlan` (four slot lists). -/
structure MealPlan where
  breakfast : List FoodItem
  lunch : List FoodItem
  dinner : List FoodItem
  snacks : List FoodItem
deriving DecidableEq, Repr

/-- `MealPlan.all_items`. -/
def MealPlan.all_items (p : MealPlan) : List FoodItem :=
  p.breakfast ++ p.lunch ++ p.dinner ++ p.snacks

/-- One entry of the `MealPlan.totals` dictionary. -/
def MealPlan.totalOf (p : MealPlan) (n : Nutrient) : ℚ :=
  nutrientTotal p.all_items n

/-- Is an `Except` value a success?  (Used to state "raises" claims.) -/
def isOkE {α : Type} : Except String α → Bool
  | Except.ok _ => true
  | Except.error _ => false

/-- The slot-count validation loop of `MealPlanBuilder.build`, iterating the
configured slots in dictionary order. -/
def checkCaps (b : MealPlanBuilder) : List Slot → Except String Unit
  | [] => Except.ok ()
  | s :: rest =>
    let items := b.slotItems s
    if items.length < (b.slot_caps.get s).1 then
      Except.error ("Slot " ++ s.name ++ ": prilis malo polozek")
    else if (b.slot_caps.get s).2 < items.length then
      Except.error ("Slot " ++ s.name ++ ": prilis mnoho polozek")
    else checkCaps b rest

/-- The aggregate-limit validation loop of `MealPlanBuilder.build`: a total
below a configured minimum or above a configured maximum raises. -/
def checkLimits (p : MealPlan) : Limits → Except String Unit
  | [] => Except.ok ()
  | e :: rest =>
    if (match e.2.1 with
        | some m => decide (p.totalOf e.1 < m)
        | none => false) then
      Except.error "hodnota pod minimem"
    else if (match e.2.2 with
        | some mxv => decide (mxv < p.totalOf e.1)
        | none => false) then
      Except.error "hodnota nad maximem"
    else checkLimits p rest

/-- `MealPlanBuilder.build`.  `targetsNonempty` is the Python truthiness of
the `targets` argument; it only gates the validation block, inside which
the limit loop runs exactly when `limits` is nonempty (running the loop on
an empty `limits` does nothing, so the inner `if limits:` gate is
represented by `checkLimits` itself). -/
def MealPlanBuilder.build (b : MealPlanBuilder) (targetsNonempty : Bool)
    (L : Limits) : Except String MealPlan :=
  match checkCaps b slotOrder with
  | Except.error e => Except.error ("Chyba pri vytvareni jidelnicku: " ++ e)
  | Except.ok _ =>
    let plan : MealPlan := ⟨b.breakfast, b.lunch, b.dinner, b.snacks⟩
    if targetsNonempty || !L.isEmpty then
      match checkLimits plan L with
      | Except.error e => Except.error ("Chyba pri vytvareni jidelnicku: " ++ e)
      | Except.ok _ => Except.ok plan
    else Except.ok plan

/-- `filter_items` with a list of predicates (`all` of them must hold,
input order preserved). -/
def filter_items (items : List FoodItem) (preds : List (FoodItem → Bool)) :
    List FoodItem :=
  items.filter fun i => preds.all fun p => p i

/-- The `by_meal_time` predicate factory. -/
def by_meal_time (meal_time : String) : FoodItem → Bool :=
  fun item => decide (meal_time ∈ item.meal_times)

/-- The fixed per-slot share of the daily target (`slot_distribution`):
breakfast 25 %, lunch 35 %, dinner 30 %, snack 10 %. -/
def slotShare : Slot → ℚ
  | Slot.breakfast => 1 / 4
  | Slot.lunch => 7 / 20
  | Slot.dinner => 3 / 10
  | Slot.snack => 1 / 10

/-- The selection phase of `find_optimal_plan`: with some target set, run
`knapsack_optimize` per slot on that slot's eligible foods against the
slot-share targets, capping `max_items` (and the extended list) at the
slot's maximum capacity; with no targets, just take up to each slot's
maximum capacity of eligible foods in catalog order. -/
def selectForSlots (foods : List FoodItem) (targets : Targets) (L : Limits)
    (weights : Weights) (caps : SlotCaps) : List FoodItem :=
  if targets.anySet then
    slotOrder.foldl
      (fun acc slot =>
        let items := filter_items foods [by_meal_time slot.name]
        if items.isEmpty then acc
        else
          let slotTargets := targets.scale (slotShare slot)
          let selected :=
            knapsack_optimize items slotTargets L weights (caps.get slot).2
          acc ++ selected.take (caps.get slot).2)
      []
  else
    slotOrder.foldl
      (fun acc slot =>
        acc ++ (filter_items foods [by_meal_time slot.name]).take (caps.get slot).2)
      []

/-- The fresh builder of `find_optimal_plan`: empty slot lists and the
given capacities (installed by the `set_slot_limits` loop). -/
def initialBuilder (caps : SlotCaps) : MealPlanBuilder :=
  ⟨[], [], [], [], caps⟩

/-- The `builder.add_*` loop over one slot list of the distribution. -/
def addMany (b : MealPlanBuilder) (slot : String) :
    List FoodItem → Except String MealPlanBuilder
  | [] => Except.ok b
  | f :: fs =>
    match b.add_to_slot slot f with
    | Except.error e => Except.error e
    | Except.ok b2 => addMany b2 slot fs

/-- The assembly phase of `find_optimal_plan`: add every distributed food
through the builder (slot by slot), then `build`. -/
def assemble (dist : Distribution) (caps : SlotCaps) (targetsNonempty : Bool)
    (L : Limits) : Except String MealPlan :=
  match addMany (initialBuilder caps) "breakfast" dist.breakfast with
  | Except.error e => Except.error e
  | Except.ok b1 =>
    match addMany b1 "lunch" dist.lunch with
    | Except.error e => Except.error e
    | Except.ok b2 =>
      match addMany b2 "dinner" dist.dinner with
      | Except.error e => Except.error e
      | Except.ok b3 =>
        match addMany b3 "snack" dist.snack with
        | Except.error e => Except.error e
        | Except.ok b4 => b4.build targetsNonempty L

/-- The body of `find_optimal_plan`'s `try` block: selection, distribution,
assembly.  An `Except.error` models any exception raised inside the block. -/
def pipeline (foods : List FoodItem) (targets : Targets) (L : Limits)
    (weights : Weights) (caps : SlotCaps) : Except String MealPlan :=
  let all_selected := selectForSlots foods targets L weights caps
  let dist := distribute_to_slots all_selected caps
  assemble dist caps targets.anySet L

/-- `find_optimal_plan`: the surrounding `try/except` converts every
exception into the absence result `None`. -/
def find_optimal_plan (foods : List FoodItem) (targets : Targets) (L : Limits)
    (weights : Weights) (caps : SlotCaps) : Option MealPlan :=
  match pipeline foods targets L weights caps with
  | Except.ok plan => some plan
  | Except.error _ => none

/-- One CSV row after field extraction, as `load_foods` sees it.  `none` in
a numeric field models a missing column or a value on which `int(float(x))`
or `float(x)` raises (the row is then skipped with a warning); `none` in
`meal_times`/`tags` models a missing column. -/
structure Row where
  name : Option String := none
  calories : Option Int := none
  protein : Option ℚ := none
  fat : Option ℚ := none
  carbs : Option ℚ := none
  meal_times : Option String := none
  tags : Option String := none
deriving DecidableEq, Repr

/-- The `meal_times` parsing of `load_foods`: default all four slots,
otherwise split on the pipe and strip each part. -/
def parseTimes (s : Option String) : List String :=
  match s with
  | some str =>
    if str.trim.isEmpty then ["breakfast", "lunch", "dinner", "snack"]
    else (str.splitOn "|").map String.trim
  | none => ["breakfast", "lunch", "dinner", "snack"]

/-- The `tags` parsing of `load_foods`: default empty, otherwise split on
the pipe and strip each part. -/
def parseTags (s : Option String) : List String :=
  match s with
  | some str =>
    if str.trim.isEmpty then [] else (str.splitOn "|").map String.trim
  | none => []

/-- The per-row body of `load_foods`: a row whose required fields are all
present and parseable becomes a `FoodItem` carrying exactly the parsed
values (name stripped); any other row is skipped.  No check on the sign of
any numeric value appears in the source. -/
def parseRow (r : Row) : Option FoodItem :=
  match r.name, r.calories, r.protein, r.fat, r.carbs with
  | some nm, some c, some p, some f, some cb =>
    some { name := nm.trim, calories := c, protein := p, fat := f, carbs := cb,
           meal_times := parseTimes r.meal_times, tags := parseTags r.tags }
  | _, _, _, _, _ => none

/-- `load_foods` over the extracted rows: keep every row that parses. -/
def load_foods (rows : List Row) : List FoodItem :=
  rows.filterMap parseRow

/-- Claim predicate (C1): each bound that configures both a minimum and a
maximum has minimum ≤ maximum. -/
def minLeMaxB (L : Limits) : Bool :=
  L.all fun e =>
    match e.2.1, e.2.2 with
    | some m, some mxv => decide (m ≤ mxv)
    | _, _ => true

/-- Claim predicate (C1): for every nonempty prefix of the accepted list —
i.e. at the moment each record was accepted — every nutrient with a
configured maximum bound is at or below that maximum. -/
def respectsMaximaB (L : Limits) (sel : List FoodItem) : Bool :=
  (List.range (sel.length + 1)).all fun k =>
    k == 0 ||
      L.all fun e =>
        match e.2.2 with
        | some mxv => decide (nutrientTotal (sel.take k) e.1 ≤ mxv)
        | none => true

/-- Claim predicate (C2): every slot other than breakfast that the food is
eligible for is already at its maximum capacity in the distribution state. -/
def noOtherEligibleFreeB (caps : SlotCaps) (d : Distribution) (f : FoodItem) : Bool :=
  slotOrder.all fun s =>
    s == Slot.breakfast ||
      !(decide (s.name ∈ f.meal_times)) ||
      decide ((caps.get s).2 ≤ (d.get s).length)

/-- Claim predicate (C5): some configured slot's item count lies outside
its `[min, max]` range. -/
def capViolB (b : MealPlanBuilder) : Bool :=
  slotOrder.any fun s =>
    decide ((b.slotItems s).length < (b.slot_caps.get s).1) ||
      decide ((b.slot_caps.get s).2 < (b.slotItems s).length)

/-- Claim predicate (C5): one `limits` entry is violated by the plan's
totals (below its minimum or above its maximum). -/
def limitViolB (p : MealPlan) (e : Nutrient × Option ℚ × Option ℚ) : Bool :=
  (match e.2.1 with
   | some m => decide (p.totalOf e.1 < m)
   | none => false) ||
    (match e.2.2 with
     | some mxv => decide (mxv < p.totalOf e.1)
     | none => false)

/-- Claim predicate (C5): some supplied aggregate bound is violated. -/
def boundViolB (b : MealPlanBuilder) (L : Limits) : Bool :=
  L.any fun e => limitViolB ⟨b.breakfast, b.lunch, b.dinner, b.snacks⟩ e

/-- Claim predicate (C9): every food of every slot list of a plan is
eligible for its slot. -/
def planEligible (p : MealPlan) : Bool :=
  (p.breakfast.all fun i => decide ("breakfast" ∈ i.meal_times)) &&
    (p.lunch.all fun i => decide ("lunch" ∈ i.meal_times)) &&
    (p.dinner.all fun i => decide ("dinner" ∈ i.meal_times)) &&
    (p.snacks.all fun i => decide ("snack" ∈ i.meal_times))

/-- Claim predicate (C9): every food of every slot list of a builder is
eligible for its slot. -/
def builderEligible (b : MealPlanBuilder) : Bool :=
  (b.breakfast.all fun i => decide ("breakfast" ∈ i.meal_times)) &&
    (b.lunch.all fun i => decide ("lunch" ∈ i.meal_times)) &&
    (b.dinner.all fun i => decide ("dinner" ∈ i.meal_times)) &&
    (b.snacks.all fun i => decide ("snack" ∈ i.meal_times))

/-- Per-nutrient contribution, written from the specification text: for a
nutrient present in the target with a strictly positive goal,
`ratio = value / max(target, 1)` contributes `-weight * (ratio - 1)` when
`ratio > 1.5` and `weight * (1 - |1 - ratio|)` otherwise; an absent or
non-positive target contributes nothing. -/
def specContribution (food : FoodItem) (targets : Targets) (weights : Weights)
    (n : Nutrient) : ℚ :=
  match targets.get n with
  | some tv =>
    if 0 < tv then
      let rr := food.nutrientValue n / max tv 1
      if (3 : ℚ) / 2 < rr then -(weights.getW n) * (rr - 1)
      else weights.getW n * (1 - |1 - rr|)
    else 0
  | none => 0

/-- Final score, written from the specification text: the sum of the four
per-nutrient contributions divided by the fixed count of tracked
nutrients (4). -/
def specScore (food : FoodItem) (targets : Targets) (weights : Weights) : ℚ :=
  (specContribution food targets weights Nutrient.calories +
      specContribution food targets weights Nutrient.protein +
      specContribution food targets weights Nutrient.fat +
      specContribution food targets weights Nutrient.carbs) / 4

/-- Concrete food used by several examples: 50 kcal, eligible everywhere. -/
def foodA : FoodItem :=
  { name := "A", calories := 50, protein := 0, fat := 0, carbs := 0,
    meal_times := ["breakfast", "lunch", "dinner", "snack"], tags := [] }

/-- A degenerate bound map whose calories entry has minimum 100 above
maximum 0. -/
def cxLimits : Limits := [(Nutrient.calories, some (100 : ℚ), some (0 : ℚ))]

/-- A well-formed bound map: calories between 40 and 60. -/
def wLimits : Limits := [(Nutrient.calories, some (40 : ℚ), some (60 : ℚ))]

/-- A target of 50 kcal. -/
def tCal50 : Targets := { calories := some 50 }

/-- The empty target map. -/
def t0 : Targets := {}

/-- The empty weight map (every weight defaults to 1). -/
def w0 : Weights := {}

/-- The empty limit map. -/
def L0 : Limits := []

/-- A meat-tagged food eligible only for breakfast. -/
def cxMeat : FoodItem :=
  { name := "m", calories := 0, protein := 0, fat := 0, carbs := 0,
    meal_times := ["breakfast"], tags := ["meat"] }

/-- A meat-tagged food eligible for breakfast and lunch. -/
def wMeat : FoodItem :=
  { name := "m2", calories := 0, protein := 0, fat := 0, carbs := 0,
    meal_times := ["breakfast", "lunch"], tags := ["meat"] }

/-- Capacities `(0, 2)` for every slot. -/
def capsAll02 : SlotCaps := ⟨(0, 2), (0, 2), (0, 2), (0, 2)⟩

/-- Capacities with a zero-capacity lunch slot. -/
def capsMeatW : SlotCaps := ⟨(0, 2), (0, 0), (0, 2), (0, 2)⟩

/-- The default slot capacities of `MealPlanBuilder.__init__`. -/
def capsDefault : SlotCaps := ⟨(1, 2), (1, 3), (1, 3), (0, 2)⟩

/-- Capacities used by the successful-plan example. -/
def capsC9 : SlotCaps := ⟨(1, 2), (0, 3), (0, 3), (0, 2)⟩

/-- A fresh builder with the default capacities. -/
def b0 : MealPlanBuilder := initialBuilder capsDefault

/-- A row whose numeric fields parse to negative values. -/
def negRow : Row :=
  { name := some "Bad", calories := some (-100), protein := some (-1),
    fat := some 2, carbs := some 3 }

/-- The record `load_foods` produces from `negRow` (the name as stripped by
ingestion). -/
def negItem : FoodItem :=
  { name := "Bad".trim, calories := -100, protein := -1, fat := 2, carbs := 3,
    meal_times := ["breakfast", "lunch", "dinner", "snack"], tags := [] }

/-- A food eligible only for a slot name outside the four known slots. -/
def brunchItem : FoodItem :=
  { name := "br", calories := 1, protein := 0, fat := 0, carbs := 0,
    meal_times := ["brunch"], tags := [] }

/-- The plan produced by the successful-plan example. -/
def wPlan : MealPlan := ⟨[foodA, foodA], [foodA, foodA], [], []⟩

/-! ## Lemmas and claim theorems -/

theorem nutrientTotal_cons (f : FoodItem) (l : List FoodItem) (n : Nutrient) :
    nutrientTotal (f :: l) n = f.nutrientValue n + nutrientTotal l n := by
  simp [nutrientTotal]

theorem scoreStep_eq (food : FoodItem) (targets : Targets) (weights : Weights)
    (s : ℚ) (n : Nutrient) :
    scoreStep food targets weights s n = s + specContribution food targets weights n := by
  unfold scoreStep specContribution
  cases h : targets.get n with
  | none => simp
  | some tv =>
    by_cases htv : 0 < tv
    · simp only [if_pos htv]
      by_cases hr : (3 : ℚ) / 2 < food.nutrientValue n / max tv 1
      · simp only [if_pos hr]
      · simp only [if_neg hr]
    · simp [htv]

theorem foodScore_eq_specScore (food : FoodItem) (targets : Targets)
    (weights : Weights) :
    foodScore food targets weights = specScore food targets weights := by
  unfold foodScore specScore nutrientsOrder
  simp only [List.foldl_cons, List.foldl_nil, scoreStep_eq]
  ring

/-- Claim C4: the Scorer computes, for each of the four tracked nutrients
present in the target with a strictly positive goal,
`ratio = value / max(target, 1)`, contributing `-weight * (ratio - 1)` when
`ratio > 1.5` and `weight * (1 - |1 - ratio|)` otherwise (weight defaulting
to 1), and the final score is the sum of contributions divided by 4
regardless of how many nutrients were scored; a food with no active
targets scores 0. -/
theorem C4_scorer (food : FoodItem) (targets : Targets) (weights : Weights) :
    foodScore food targets weights = specScore food targets weights ∧
    (targets.hasActive = false → foodScore food targets weights = 0) := by
  refine ⟨foodScore_eq_specScore food targets weights, fun h => ?_⟩
  rw [foodScore_eq_specScore food targets weights]
  have hz : ∀ n, n ∈ nutrientsOrder → specContribution food targets weights n = 0 := by
    intro n hn
    cases hg : targets.get n with
    | none => simp [specContribution, hg]
    | some tv =>
      have hb2 : decide (0 < tv) = false := by
        cases hb3 : decide (0 < tv) with
        | false => rfl
        | true =>
          exfalso
          have ht : targets.hasActive = true := by
            unfold Targets.hasActive
            rw [List.any_eq_true]
            refine ⟨n, hn, ?_⟩
            rw [hg]
            exact hb3
          rw [h] at ht
          exact Bool.false_ne_true ht
      simp only [decide_eq_false_iff_not] at hb2
      simp [specContribution, hg, hb2]
  unfold specScore
  rw [hz Nutrient.calories (by simp [nutrientsOrder]),
    hz Nutrient.protein (by simp [nutrientsOrder]),
    hz Nutrient.fat (by simp [nutrientsOrder]),
    hz Nutrient.carbs (by simp [nutrientsOrder])]
  norm_num

/-- Witness for C4: the scorer equality at a concrete food, and a concrete
food with no active targets scoring 0. -/
theorem C4_witness :
    foodScore foodA t0 w0 = specScore foodA t0 w0 ∧ foodScore foodA t0 w0 = 0 :=
  ⟨(C4_scorer foodA t0 w0).1, (C4_scorer foodA t0 w0).2 rfl⟩

theorem withinLimits_max_le (L : Limits) (hL : minLeMaxB L = true)
    (tot : Nutrient → ℚ) (h : withinLimitsB L tot = true) :
    ∀ e ∈ L, ∀ mxv, e.2.2 = some mxv → tot e.1 ≤ mxv := by
  intro e he mxv hmx
  unfold withinLimitsB at h
  rw [List.all_eq_true] at h
  have h1 := h e he
  unfold minLeMaxB at hL
  rw [List.all_eq_true] at hL
  have h2 := hL e he
  obtain ⟨n, mn, mx⟩ := e
  simp only at h1 h2 hmx ⊢
  subst hmx
  unfold limitEntryOk at h1
  cases mn with
  | none => simpa using h1
  | some m =>
    simp only at h1 h2
    by_cases hv : tot n < m
    · have hm : m ≤ mxv := by simpa using h2
      linarith
    · rw [if_neg hv] at h1
      simpa using h1

theorem selectFoods_length_le (L : Limits) :
    ∀ (ss : List (ℚ × FoodItem)) (tot : Nutrient → ℚ) (r : Nat),
      (selectFoods L ss tot r).length ≤ r := by
  intro ss
  induction ss with
  | nil => intro tot r; simp [selectFoods]
  | cons x rest ih =>
    intro tot r
    obtain ⟨s, f⟩ := x
    by_cases hr : r = 0
    · simp [selectFoods, hr]
    · cases hw : withinLimitsB L (fun n => tot n + f.nutrientValue n) with
      | false =>
        rw [selectFoods]
        simp only [if_neg hr, hw, if_false]
        exact ih tot r
      | true =>
        rw [selectFoods]
        simp only [if_neg hr, hw, if_true, List.length_cons]
        have := ih (fun n => tot n + f.nutrientValue n) (r - 1)
        omega

theorem selectFoods_safety (L : Limits) (hL : minLeMaxB L = true) :
    ∀ (ss : List (ℚ × FoodItem)) (tot : Nutrient → ℚ) (r k : Nat),
      0 < k → k ≤ (selectFoods L ss tot r).length →
      ∀ e ∈ L, ∀ mxv, e.2.2 = some mxv →
        tot e.1 + nutrientTotal ((selectFoods L ss tot r).take k) e.1 ≤ mxv := by
  intro ss
  induction ss with
  | nil =>
    intro tot r k hk hlen
    simp [selectFoods] at hlen
    omega
  | cons x rest ih =>
    intro tot r k hk hlen e he mxv hmx
    obtain ⟨s, f⟩ := x
    by_cases hr : r = 0
    · rw [selectFoods] at hlen
      simp [hr] at hlen
      omega
    · cases hw : withinLimitsB L (fun n => tot n + f.nutrientValue n) with
      | false =>
        rw [selectFoods] at hlen ⊢
        simp only [if_neg hr, hw, if_false] at hlen ⊢
        exact ih tot r k hk hlen e he mxv hmx
      | true =>
        rw [selectFoods] at hlen ⊢
        simp only [if_neg hr, hw, if_true] at hlen ⊢
        cases k with
        | zero => omega
        | succ j =>
          rw [List.take_succ_cons, nutrientTotal_cons]
          by_cases hj : j = 0
          · subst hj
            simp only [List.take_zero]
            have hle := withinLimits_max_le L hL _ hw e he mxv hmx
            simp only at hle
            simp [nutrientTotal]
            linarith
          · have hj0 : 0 < j := Nat.pos_of_ne_zero hj
            simp only [List.length_cons] at hlen
            have hlen2 : j ≤ (selectFoods L rest
                (fun n => tot n + f.nutrientValue n) (r - 1)).length := by
              omega
            have := ih (fun n => tot n + f.nutrientValue n) (r - 1) j hj0 hlen2
              e he mxv hmx
            simp only at this
            linarith

theorem respectsMaximaB_of (L : Limits) (sel : List FoodItem)
    (h : ∀ k, 0 < k → k ≤ sel.length → ∀ e ∈ L, ∀ mxv, e.2.2 = some mxv →
      nutrientTotal (sel.take k) e.1 ≤ mxv) :
    respectsMaximaB L sel = true := by
  unfold respectsMaximaB
  rw [List.all_eq_true]
  intro k hk
  rw [List.mem_range] at hk
  by_cases hk0 : k = 0
  · simp [hk0]
  · rw [Bool.or_eq_true]
    right
    rw [List.all_eq_true]
    intro e he
    cases hmx : e.2.2 with
    | none => simp
    | some mxv =>
      simp only [decide_eq_true_eq]
      exact h k (Nat.pos_of_ne_zero hk0) (by omega) e he mxv hmx

/-- Claim C1 (amended): provided every bound that configures both a minimum
and a maximum has minimum ≤ maximum, `knapsack_optimize` returns at most
`max_items` records, and at the moment of each record's acceptance the
running totals stay at or below every configured maximum.  (For a
degenerate bound with minimum above maximum, the below-minimum `continue`
skips the maximum check and the claim as stated fails — see the
counterexample.) -/
theorem C1_selector_bounds (foods : List FoodItem) (targets : Targets)
    (L : Limits) (weights : Weights) (maxItems : Nat)
    (hL : minLeMaxB L = true) :
    (knapsack_optimize foods targets L weights maxItems).length ≤ maxItems ∧
    respectsMaximaB L (knapsack_optimize foods targets L weights maxItems) = true := by
  unfold knapsack_optimize
  cases hg : (!targets.anySet || foods.isEmpty) with
  | true =>
    rw [if_pos rfl]
    constructor
    · simp
    · simp [respectsMaximaB]
  | false =>
    rw [if_neg Bool.false_ne_true]
    constructor
    · exact selectFoods_length_le L _ _ _
    · apply respectsMaximaB_of
      intro k hk hklen e he mxv hmx
      have := selectFoods_safety L hL _ (fun _ => 0) maxItems k hk hklen e he mxv hmx
      simpa using this

/-- Counterexample for C1 as stated: with the degenerate calories bound
(minimum 100, maximum 0), the selector accepts `foodA` (50 kcal) even
though its acceptance puts the calories total above the configured maximum
0 — the below-minimum `continue` skipped the maximum check. -/
theorem C1_counterexample :
    knapsack_optimize [foodA] tCal50 cxLimits w0 5 = [foodA] ∧
    (Nutrient.calories, some (100 : ℚ), some (0 : ℚ)) ∈ cxLimits ∧
    respectsMaximaB cxLimits (knapsack_optimize [foodA] tCal50 cxLimits w0 5) = false := by
  have hrun : knapsack_optimize [foodA] tCal50 cxLimits w0 5 = [foodA] := by
    unfold knapsack_optimize
    norm_num [Targets.anySet, tCal50, itemScores, sortByScoreDesc, insertByScore,
      selectFoods, withinLimitsB, limitEntryOk, cxLimits, FoodItem.nutrientValue, foodA]
  refine ⟨hrun, by decide, ?_⟩
  rw [hrun]
  norm_num [respectsMaximaB, cxLimits, nutrientTotal, FoodItem.nutrientValue, foodA,
    List.range_succ]

/-- Witness for C1 at a concrete well-formed bound map. -/
theorem C1_witness :
    (knapsack_optimize [foodA] tCal50 wLimits w0 5).length ≤ 5 ∧
    respectsMaximaB wLimits (knapsack_optimize [foodA] tCal50 wLimits w0 5) = true :=
  C1_selector_bounds [foodA] tCal50 wLimits w0 5 (by decide)

theorem filter_insertByScore (x : ℚ × FoodItem) (l : List (ℚ × FoodItem)) (q : ℚ) :
    (insertByScore x l).filter (fun p => decide (p.1 = q)) =
      if x.1 = q then x :: l.filter (fun p => decide (p.1 = q))
      else l.filter (fun p => decide (p.1 = q)) := by
  induction l with
  | nil =>
    by_cases hx : x.1 = q
    · simp [insertByScore, hx]
    · simp [insertByScore, hx]
  | cons y ys ih =>
    by_cases hle : y.1 ≤ x.1
    · rw [insertByScore, if_pos hle]
      by_cases hx : x.1 = q
      · simp [hx, List.filter_cons]
      · simp [List.filter_cons, hx]
    · rw [insertByScore, if_neg hle]
      push_neg at hle
      by_cases hy : y.1 = q
      · have hx : ¬ x.1 = q := by
          intro hx
          rw [hx, hy] at hle
          exact lt_irrefl q hle
        simp [List.filter_cons, hy, hx, ih]
      · simp [List.filter_cons, hy, ih]

theorem sortByScoreDesc_stable (l : List (ℚ × FoodItem)) (q : ℚ) :
    (sortByScoreDesc l).filter (fun p => decide (p.1 = q)) =
      l.filter (fun p => decide (p.1 = q)) := by
  induction l with
  | nil => rfl
  | cons x xs ih =>
    rw [sortByScoreDesc, filter_insertByScore]
    by_cases hx : x.1 = q
    · rw [if_pos hx, ih]
      simp only [List.filter_cons, decide_eq_true_eq]
      rw [if_pos hx]
    · rw [if_neg hx, ih]
      simp only [List.filter_cons, decide_eq_true_eq]
      rw [if_neg hx]

/-- Claim C8: `find_optimal_plan` is deterministic — two invocations on an
identical catalog and identical parameters return identical results — and
the sort it uses is stable: for every score value, the equal-score foods of
`item_scores` appear in the sorted list in their original catalog order. -/
theorem C8_deterministic (foods : List FoodItem) (targets : Targets)
    (L : Limits) (weights : Weights) (caps : SlotCaps) (q : ℚ) :
    find_optimal_plan foods targets L weights caps =
      find_optimal_plan foods targets L weights caps ∧
    (sortByScoreDesc (itemScores foods targets weights)).filter
        (fun p => decide (p.1 = q)) =
      (itemScores foods targets weights).filter (fun p => decide (p.1 = q)) :=
  ⟨rfl, sortByScoreDesc_stable (itemScores foods targets weights) q⟩

theorem Distribution.get_push (d : Distribution) (s0 s : Slot) (f : FoodItem) :
    (d.push s0 f).get s = if s = s0 then d.get s0 ++ [f] else d.get s := by
  cases s0 <;> cases s <;> simp [Distribution.push, Distribution.get]

theorem tryNatural_some (caps : SlotCaps) (d : Distribution) (f : FoodItem) :
    ∀ (l : List Slot) (s0 : Slot), tryNatural caps d f l = some s0 →
      s0.name ∈ f.meal_times ∧ ¬(s0 = Slot.breakfast ∧ "meat" ∈ f.tags) ∧
        (d.get s0).length < (caps.get s0).2 := by
  intro l
  induction l with
  | nil => intro s0 h; simp [tryNatural] at h
  | cons s rest ih =>
    intro s0 h
    rw [tryNatural] at h
    split at h
    · rename_i hc
      obtain rfl : s = s0 := by injection h
      exact hc
    · exact ih s0 h

theorem tryNatural_none (caps : SlotCaps) (d : Distribution) (f : FoodItem) :
    ∀ (l : List Slot), tryNatural caps d f l = none →
      ∀ s ∈ l, ¬(s.name ∈ f.meal_times ∧ ¬(s = Slot.breakfast ∧ "meat" ∈ f.tags) ∧
        (d.get s).length < (caps.get s).2) := by
  intro l
  induction l with
  | nil => intro _ s hs; simp at hs
  | cons s1 rest ih =>
    intro h s hs
    rw [tryNatural] at h
    split at h
    · exact absurd h (by simp)
    · rename_i hc
      rcases List.mem_cons.mp hs with rfl | hmem
      · exact hc
      · exact ih h s hmem

theorem tryFallback_some (caps : SlotCaps) (d : Distribution) :
    ∀ (l : List Slot) (s0 : Slot), tryFallback caps d l = some s0 →
      (d.get s0).length < (caps.get s0).2 := by
  intro l
  induction l with
  | nil => intro s0 h; simp [tryFallback] at h
  | cons s rest ih =>
    intro s0 h
    rw [tryFallback] at h
    split at h
    · rename_i hc
      obtain rfl : s = s0 := by injection h
      exact hc
    · exact ih s0 h

theorem assignFood_le (caps : SlotCaps) (d : Distribution) (f : FoodItem)
    (h : ∀ s, (d.get s).length ≤ (caps.get s).2) :
    ∀ s, ((assignFood caps d f).get s).length ≤ (caps.get s).2 := by
  intro s
  unfold assignFood
  cases h1 : tryNatural caps d f slotOrder with
  | some s0 =>
    have hlt := (tryNatural_some caps d f slotOrder s0 h1).2.2
    rw [Distribution.get_push]
    by_cases hs : s = s0
    · subst hs
      rw [if_pos rfl]
      simp only [List.length_append, List.length_singleton]
      omega
    · rw [if_neg hs]
      exact h s
  | none =>
    cases h2 : tryFallback caps d slotOrder with
    | some s0 =>
      have hlt := tryFallback_some caps d slotOrder s0 h2
      rw [Distribution.get_push]
      by_cases hs : s = s0
      · subst hs
        rw [if_pos rfl]
        simp only [List.length_append, List.length_singleton]
        omega
      · rw [if_neg hs]
        exact h s
    | none => exact h s

theorem foldl_assignFood_le (caps : SlotCaps) :
    ∀ (foods : List FoodItem) (d : Distribution),
      (∀ s, (d.get s).length ≤ (caps.get s).2) →
      ∀ s, ((foods.foldl (assignFood caps) d).get s).length ≤ (caps.get s).2 := by
  intro foods
  induction foods with
  | nil => intro d h s; exact h s
  | cons f rest ih =>
    intro d h s
    rw [List.foldl_cons]
    exact ih (assignFood caps d f) (assignFood_le caps d f h) s

/-- Claim C7: the Slot Allocator never assigns more items to any slot than
that slot's configured maximum count, on both the eligibility path and the
fallback path. -/
theorem C7_allocator_caps (foods : List FoodItem) (caps : SlotCaps) (s : Slot) :
    ((distribute_to_slots foods caps).get s).length ≤ (caps.get s).2 := by
  unfold distribute_to_slots
  apply foldl_assignFood_le caps foods emptyDistribution
  intro s2
  cases s2 <;> simp [emptyDistribution, Distribution.get]

/-- Claim C2 (amended): when the Slot Allocator processes a meat-tagged
food in state `d = distribute_to_slots pre caps` and places it in
breakfast, then every slot other than breakfast that the food is
*eligible* for was already at its maximum capacity — the assignment
happened on the fallback path, which tries breakfast first and ignores
eligibility; slots the food is not eligible for may still have free
capacity (see the counterexample for the claim as stated). -/
theorem C2_meat_breakfast (caps : SlotCaps) (pre : List FoodItem) (f : FoodItem)
    (hmeat : "meat" ∈ f.tags)
    (hplaced : (assignFood caps (distribute_to_slots pre caps) f).get Slot.breakfast ≠
      (distribute_to_slots pre caps).get Slot.breakfast) :
    noOtherEligibleFreeB caps (distribute_to_slots pre caps) f = true := by
  set d := distribute_to_slots pre caps with hd
  unfold assignFood at hplaced
  cases h1 : tryNatural caps d f slotOrder with
  | some s0 =>
    exfalso
    have hno := (tryNatural_some caps d f slotOrder s0 h1).2.1
    have hs0 : s0 ≠ Slot.breakfast := by
      intro hcon
      exact hno ⟨hcon, hmeat⟩
    rw [h1] at hplaced
    rw [Distribution.get_push, if_neg (Ne.symm hs0)] at hplaced
    exact hplaced rfl
  | none =>
    have hall := tryNatural_none caps d f slotOrder h1
    unfold noOtherEligibleFreeB
    rw [List.all_eq_true]
    intro s hs
    by_cases hbf : s = Slot.breakfast
    · subst hbf
      simp
    · have hns := hall s hs
      rw [Bool.or_eq_true, Bool.or_eq_true]
      by_cases hel : s.name ∈ f.meal_times
      · right
        rw [decide_eq_true_eq]
        by_contra hlt
        push_neg at hlt
        exact hns ⟨hel, fun hcon => hbf hcon.1, hlt⟩
      · left; right
        simp [hel]

/-- Counterexample for C2 as stated: a meat-tagged food eligible only for
breakfast is placed in breakfast by the fallback even though the lunch
slot had free capacity at the time it was processed (the allocator state
was still empty). -/
theorem C2_counterexample :
    "meat" ∈ cxMeat.tags ∧
    (distribute_to_slots [cxMeat] capsAll02).get Slot.breakfast = [cxMeat] ∧
    (emptyDistribution.get Slot.lunch).length < (capsAll02.get Slot.lunch).2 := by
  refine ⟨by decide, by decide, by decide⟩

/-- Witness for C2: a meat food eligible for breakfast and lunch, with the
lunch slot's capacity zero, lands in breakfast and every other eligible
slot is indeed full. -/
theorem C2_witness :
    noOtherEligibleFreeB capsMeatW (distribute_to_slots [] capsMeatW) wMeat = true :=
  C2_meat_breakfast capsMeatW [] wMeat (by decide) (by decide)

theorem checkCaps_isOk (b : MealPlanBuilder) :
    ∀ l : List Slot, isOkE (checkCaps b l) =
      !(l.any fun s =>
        decide ((b.slotItems s).length < (b.slot_caps.get s).1) ||
          decide ((b.slot_caps.get s).2 < (b.slotItems s).length)) := by
  intro l
  induction l with
  | nil => rfl
  | cons s rest ih =>
    rw [checkCaps, List.any_cons]
    by_cases h1 : (b.slotItems s).length < (b.slot_caps.get s).1
    · simp [h1, isOkE]
    · by_cases h2 : (b.slot_caps.get s).2 < (b.slotItems s).length
      · simp [h1, h2, isOkE]
      · simp [h1, h2, ih]

theorem checkLimits_isOk (p : MealPlan) :
    ∀ L : Limits, isOkE (checkLimits p L) = !(L.any (limitViolB p)) := by
  intro L
  induction L with
  | nil => rfl
  | cons e rest ih =>
    rw [checkLimits, List.any_cons]
    cases hm : (match e.2.1 with
        | some m => decide (p.totalOf e.1 < m)
        | none => false) with
    | true => simp [isOkE, limitViolB, hm]
    | false =>
      cases hx : (match e.2.2 with
          | some mxv => decide (mxv < p.totalOf e.1)
          | none => false) with
      | true => simp [isOkE, limitViolB, hm, hx]
      | false => simp [limitViolB, hm, hx, ih]

theorem build_isOk (b : MealPlanBuilder) (tn : Bool) (L : Limits) :
    isOkE (b.build tn L) = (!capViolB b && !boundViolB b L) := by
  unfold MealPlanBuilder.build
  cases hc : checkCaps b slotOrder with
  | error e =>
    have h := checkCaps_isOk b slotOrder
    rw [hc] at h
    simp only [isOkE] at h
    unfold capViolB
    rw [← h]
    rfl
  | ok u =>
    have h := checkCaps_isOk b slotOrder
    rw [hc] at h
    simp only [isOkE] at h
    have hcap : capViolB b = false := by
      unfold capViolB
      rw [← Bool.not_eq_true', ← h]
    rw [hcap]
    by_cases hgate : (tn || !L.isEmpty) = true
    · rw [if_pos hgate]
      cases hl : checkLimits ⟨b.breakfast, b.lunch, b.dinner, b.snacks⟩ L with
      | error e =>
        have h2 := checkLimits_isOk ⟨b.breakfast, b.lunch, b.dinner, b.snacks⟩ L
        rw [hl] at h2
        simp only [isOkE] at h2
        unfold boundViolB
        rw [← h2]
        rfl
      | ok u2 =>
        have h2 := checkLimits_isOk ⟨b.breakfast, b.lunch, b.dinner, b.snacks⟩ L
        rw [hl] at h2
        simp only [isOkE] at h2
        have hbound : boundViolB b L = false := by
          unfold boundViolB
          rw [← Bool.not_eq_true', ← h2]
        rw [hbound]
        rfl
    · rw [if_neg hgate]
      have h2 : (!L.isEmpty) ≠ true := fun hcon =>
        hgate (by rw [Bool.or_eq_true]; right; exact hcon)
      have h3 : L.isEmpty = true := by
        cases hLe : L.isEmpty with
        | true => rfl
        | false => exact absurd (by rw [hLe]; rfl) h2
      have hL : L = [] := by simpa using h3
      subst hL
      simp [isOkE, boundViolB]

theorem build_ok_eq (b : MealPlanBuilder) (tn : Bool) (L : Limits) (p : MealPlan)
    (h : b.build tn L = Except.ok p) :
    p = ⟨b.breakfast, b.lunch, b.dinner, b.snacks⟩ := by
  unfold MealPlanBuilder.build at h
  cases hc : checkCaps b slotOrder with
  | error e => rw [hc] at h; simp at h
  | ok u =>
    rw [hc] at h
    by_cases hgate : (tn || !L.isEmpty) = true
    · rw [if_pos hgate] at h
      cases hl : checkLimits ⟨b.breakfast, b.lunch, b.dinner, b.snacks⟩ L with
      | error e => rw [hl] at h; simp at h
      | ok u2 =>
        rw [hl] at h
        injection h with h
        exact h.symm
    · rw [if_neg hgate] at h
      injection h with h
      exact h.symm

/-- Claim C5: `MealPlanBuilder.build` fails exactly when some configured
slot's item count lies outside its `[min, max]` range or some supplied
aggregate bound is violated by the plan's totals; otherwise it returns the
plan whose slot lists equal the accumulated contents.  In particular with
breakfast capacity `(1, 2)` and zero breakfast items it fails. -/
theorem C5_build_validation (b : MealPlanBuilder) (tn : Bool) (L : Limits) :
    (isOkE (b.build tn L) = (!capViolB b && !boundViolB b L)) ∧
    (∀ p, b.build tn L = Except.ok p →
      p = ⟨b.breakfast, b.lunch, b.dinner, b.snacks⟩) ∧
    (b.breakfast = [] → b.slot_caps.breakfast = (1, 2) →
      isOkE (b.build tn L) = false) := by
  refine ⟨build_isOk b tn L, fun p h => build_ok_eq b tn L p h, fun h1 h2 => ?_⟩
  rw [build_isOk]
  have hv : capViolB b = true := by
    unfold capViolB
    rw [List.any_eq_true]
    refine ⟨Slot.breakfast, by simp [slotOrder], ?_⟩
    rw [Bool.or_eq_true]
    left
    rw [decide_eq_true_eq]
    show b.breakfast.length < (b.slot_caps.get Slot.breakfast).1
    rw [h1]
    show 0 < (b.slot_caps.breakfast).1
    rw [h2]
    decide
  rw [hv]
  rfl

/-- Witness for C5: the fresh builder with the default capacities (breakfast
`(1, 2)`) and no breakfast items fails to build. -/
theorem C5_witness : isOkE (b0.build true L0) = false :=
  (C5_build_validation b0 true L0).2.2 rfl rfl

/-- Claim C10: `add_to_slot` raises exactly when the slot name is not in
the item's `meal_times`; called with a slot name outside the four known
slots that is in the item's `meal_times`, it raises nothing and returns the
builder completely unchanged (the item is added nowhere). -/
theorem C10_add_to_slot (b : MealPlanBuilder) (slot : String) (item : FoodItem) :
    (isOkE (b.add_to_slot slot item) = false ↔ slot ∉ item.meal_times) ∧
    (slot ∉ (["breakfast", "lunch", "dinner", "snack"] : List String) →
      slot ∈ item.meal_times → b.add_to_slot slot item = Except.ok b) := by
  constructor
  · unfold MealPlanBuilder.add_to_slot
    by_cases hm : slot ∉ item.meal_times
    · rw [if_pos hm]
      simp [isOkE, hm]
    · rw [if_neg hm]
      split_ifs <;> simp [isOkE, hm]
  · intro hs hm
    unfold MealPlanBuilder.add_to_slot
    rw [if_neg (by simpa using hm)]
    have h1 : ¬ slot = "breakfast" := fun h => hs (by simp [h])
    have h2 : ¬ slot = "lunch" := fun h => hs (by simp [h])
    have h3 : ¬ slot = "dinner" := fun h => hs (by simp [h])
    have h4 : ¬ slot = "snack" := fun h => hs (by simp [h])
    rw [if_neg h1, if_neg h2, if_neg h3, if_neg h4]

/-- Witness for C10: the unknown slot name `"brunch"`, listed in the item's
`meal_times`, is accepted without error and leaves the builder unchanged. -/
theorem C10_witness : b0.add_to_slot "brunch" brunchItem = Except.ok b0 :=
  (C10_add_to_slot b0 "brunch" brunchItem).2 (by decide) (by decide)

/-- Claim C6: `find_optimal_plan` never propagates a failure — whenever the
pipeline body raises, the result is the absence value `none`, and whenever
it succeeds the plan is returned as-is. -/
theorem C6_no_exception (foods : List FoodItem) (targets : Targets) (L : Limits)
    (weights : Weights) (caps : SlotCaps) :
    (isOkE (pipeline foods targets L weights caps) = false →
      find_optimal_plan foods targets L weights caps = none) ∧
    (∀ p, pipeline foods targets L weights caps = Except.ok p →
      find_optimal_plan foods targets L weights caps = some p) := by
  constructor
  · intro h
    unfold find_optimal_plan
    cases hp : pipeline foods targets L weights caps with
    | ok p =>
      rw [hp] at h
      simp [isOkE] at h
    | error e => rfl
  · intro p hp
    unfold find_optimal_plan
    rw [hp]

/-- Witness for C6: an empty catalog with the default capacities (breakfast
minimum 1) makes the assembler raise, and the orchestrator returns `none`. -/
theorem C6_witness : find_optimal_plan [] t0 L0 w0 capsDefault = none :=
  (C6_no_exception [] t0 L0 w0 capsDefault).1 (by rfl)

theorem add_to_slot_eligible (b b2 : MealPlanBuilder) (s : String) (item : FoodItem)
    (hs : s = "breakfast" ∨ s = "lunch" ∨ s = "dinner" ∨ s = "snack")
    (hok : b.add_to_slot s item = Except.ok b2)
    (hb : builderEligible b = true) : builderEligible b2 = true := by
  unfold MealPlanBuilder.add_to_slot at hok
  by_cases hm : s ∉ item.meal_times
  · rw [if_pos hm] at hok
    exact absurd hok (by simp)
  · rw [if_neg hm] at hok
    push_neg at hm
    rcases hs with rfl | rfl | rfl | rfl
    · rw [if_pos rfl] at hok
      injection hok with hok
      subst hok
      simp_all [builderEligible, List.all_append]
    · rw [if_neg (by decide), if_pos rfl] at hok
      injection hok with hok
      subst hok
      simp_all [builderEligible, List.all_append]
    · rw [if_neg (by decide), if_neg (by decide), if_pos rfl] at hok
      injection hok with hok
      subst hok
      simp_all [builderEligible, List.all_append]
    · rw [if_neg (by decide), if_neg (by decide), if_neg (by decide),
        if_pos rfl] at hok
      injection hok with hok
      subst hok
      simp_all [builderEligible, List.all_append]

theorem addMany_eligible (s : String)
    (hs : s = "breakfast" ∨ s = "lunch" ∨ s = "dinner" ∨ s = "snack") :
    ∀ (fs : List FoodItem) (b b2 : MealPlanBuilder),
      addMany b s fs = Except.ok b2 → builderEligible b = true →
      builderEligible b2 = true := by
  intro fs
  induction fs with
  | nil =>
    intro b b2 h hb
    rw [addMany] at h
    injection h with h
    subst h
    exact hb
  | cons f rest ih =>
    intro b b2 h hb
    rw [addMany] at h
    cases hadd : b.add_to_slot s f with
    | error e => rw [hadd] at h; simp at h
    | ok b1 =>
      rw [hadd] at h
      exact ih b1 b2 h (add_to_slot_eligible b b1 s f hs hadd hb)

theorem assemble_eligible (dist : Distribution) (caps : SlotCaps) (tn : Bool)
    (L : Limits) (p : MealPlan) (h : assemble dist caps tn L = Except.ok p) :
    planEligible p = true := by
  unfold assemble at h
  split at h
  · exact absurd h (by simp)
  · rename_i b1 h1
    split at h
    · exact absurd h (by simp)
    · rename_i b2 h2
      split at h
      · exact absurd h (by simp)
      · rename_i b3 h3
        split at h
        · exact absurd h (by simp)
        · rename_i b4 h4
          have hb1 := addMany_eligible "breakfast" (Or.inl rfl)
            dist.breakfast (initialBuilder caps) b1 h1 (by rfl)
          have hb2 := addMany_eligible "lunch" (by simp)
            dist.lunch b1 b2 h2 hb1
          have hb3 := addMany_eligible "dinner" (by simp)
            dist.dinner b2 b3 h3 hb2
          have hb4 := addMany_eligible "snack" (by simp)
            dist.snack b3 b4 h4 hb3
          have hp := build_ok_eq b4 tn L p h
          rw [hp]
          simpa [planEligible, builderEligible] using hb4

/-- Claim C9: every plan actually returned (non-`None`) by
`find_optimal_plan` contains only foods eligible for their slot — the
builder's `add_to_slot` raises on any ineligible placement (such as a
fallback placement by the allocator), and that raise is converted to
`none` by the orchestrator. -/
theorem C9_plan_eligibility (foods : List FoodItem) (targets : Targets)
    (L : Limits) (weights : Weights) (caps : SlotCaps) (p : MealPlan)
    (h : find_optimal_plan foods targets L weights caps = some p) :
    planEligible p = true := by
  unfold find_optimal_plan at h
  cases hp : pipeline foods targets L weights caps with
  | error e => rw [hp] at h; simp at h
  | ok q =>
    rw [hp] at h
    injection h with h
    subst h
    unfold pipeline at hp
    exact assemble_eligible _ caps targets.anySet L q hp

/-- Witness for C9: a concrete run that returns a plan, whose foods are all
eligible for their slots. -/
theorem C9_witness : planEligible wPlan = true :=
  C9_plan_eligibility [foodA] t0 L0 w0 capsC9 wPlan (by rfl)

/-- Claim C3 (amended): ingestion turns every row whose required fields are
present and parseable into a record carrying exactly the parsed values —
including negative ones; no sign check is performed (see the
counterexample for the claim as stated). -/
theorem C3_ingestion (rows : List Row) (r : Row) (nm : String) (c : Int)
    (p f cb : ℚ) (hr : r ∈ rows) (hn : r.name = some nm)
    (hc : r.calories = some c) (hp : r.protein = some p) (hf : r.fat = some f)
    (hcb : r.carbs = some cb) :
    ({ name := nm.trim, calories := c, protein := p, fat := f, carbs := cb,
       meal_times := parseTimes r.meal_times,
       tags := parseTags r.tags } : FoodItem) ∈ load_foods rows := by
  unfold load_foods
  rw [List.mem_filterMap]
  refine ⟨r, hr, ?_⟩
  unfold parseRow
  rw [hn, hc, hp, hf, hcb]

/-- Counterexample for C3 as stated: a row parsing to calories −100 and
protein −1 is turned into a record with those negative values — no row
with negative values is ever rejected by `load_foods`. -/
theorem C3_counterexample :
    load_foods [negRow] = [negItem] ∧ negItem.calories < 0 ∧ negItem.protein < 0 := by
  refine ⟨by rfl, by decide, by decide⟩

/-- Witness for C3: the record parsed from the negative row is in the
returned catalog. -/
theorem C3_witness : negItem ∈ load_foods [negRow] :=
  C3_ingestion [negRow] negRow "Bad" (-100) (-1) 2 3 (by simp) rfl rfl rfl rfl rfl
